import Mathlib

/-
Verification of the benchmark harness in src/node/index.js.

Embedding conventions:
* JavaScript numbers are modelled as exact rationals (ℚ).  The division
  `iterations / (time / 1000)` at src/node/index.js:206 can produce the
  JavaScript values Infinity / -Infinity / NaN when `time = 0`, so the result
  of that division is modelled by the sum type `JSNum`.
* The timed workload bodies (testJSONOperations, ..., lines 7-146) return a
  `performance.now()` difference; the measured durations are inputs of the
  model, supplied by an oracle mapping (test index, invocation index) to the
  elapsed milliseconds of that invocation (or to a thrown error).
* `Number.prototype.toFixed` and `parseFloat` are modelled exactly for the
  decimal numerals the program produces.
* Console output is a list of printed lines; `console.log()` with no
  arguments is an empty line.
-/

attribute [local semireducible] Rat.add Rat.mul Rat.inv Rat.sub

namespace StressBench

/-- Decimal digit character: digitChar d is the character for digit d < 10. -/
def digitChar (d : ℕ) : Char := Char.ofNat (48 + d)

/-- Fuel-driven conversion of a natural number to its base-10 digit
characters, most significant first, prepended to acc. -/
def natCharsGo : ℕ → ℕ → List Char → List Char
  | 0, _, acc => acc
  | _ + 1, 0, acc => acc
  | fuel + 1, n + 1, acc =>
      natCharsGo fuel ((n + 1) / 10) (digitChar ((n + 1) % 10) :: acc)

/-- Decimal numeral of a natural number, as JavaScript prints it. -/
def natChars (n : ℕ) : List Char :=
  match n with
  | 0 => ['0']
  | n + 1 => natCharsGo (n + 2) (n + 1) []

/-- Decimal numeral of an integer, as JavaScript prints it. -/
def intToDecStr (z : ℤ) : String :=
  if z < 0 then String.mk ('-' :: natChars z.natAbs) else String.mk (natChars z.toNat)

/-- Value of a big-endian list of digit characters. -/
def digitsVal (l : List Char) : ℕ :=
  l.foldl (fun a c => 10 * a + (c.toNat - 48)) 0

/-- Rounding used by JavaScript toFixed: the integer n closest to the
argument, ties going to the larger n; equivalently the floor of x + 1/2. -/
def jsRound (q : ℚ) : ℤ := ⌊q + 1 / 2⌋

/-- Value displayed by toFixed(2): the argument rounded to hundredths. -/
def round2 (q : ℚ) : ℚ := ((jsRound (100 * q) : ℤ) : ℚ) / 100

/-- Digit characters of a toFixed(2) numeral for a nonnegative value scaled
to hundredths: integer part, a dot, then exactly two fractional digits. -/
def fixed2Chars (m : ℕ) : List Char :=
  natChars (m / 100) ++ '.' :: [digitChar (m / 10 % 10), digitChar (m % 10)]

/-- JavaScript Number.prototype.toFixed(2) on an exact rational input. -/
def toFixed2Str (q : ℚ) : String :=
  let z := jsRound (100 * q)
  if z < 0 then String.mk ('-' :: fixed2Chars z.natAbs) else String.mk (fixed2Chars z.toNat)

/-- Result of a JavaScript division that may divide by zero. -/
inductive JSNum where
  | fin (q : ℚ)
  | inf
  | negInf
  | nan
deriving DecidableEq, Repr

/-- The throughput expression of src/node/index.js:206 and :224,
`iterations / (time / 1000)`, with JavaScript division-by-zero semantics. -/
def opsPerSecJS (iterations time : ℚ) : JSNum :=
  if time = 0 then
    if 0 < iterations then JSNum.inf
    else if iterations = 0 then JSNum.nan
    else JSNum.negInf
  else JSNum.fin (iterations / (time / 1000))

/-- JavaScript toFixed(0) applied to a possibly non-finite division result:
finite values round to an integer numeral, Infinity and NaN print as such. -/
def toFixed0Str : JSNum → String
  | JSNum.fin q => intToDecStr (jsRound q)
  | JSNum.inf => "Infinity"
  | JSNum.negInf => "-Infinity"
  | JSNum.nan => "NaN"

/-- Own structural power of ten (kernel-friendly). -/
def pow10 : ℕ → ℚ
  | 0 => 1
  | n + 1 => 10 * pow10 n

/-- Fractional part of parseFloat: a dot followed by fractional digits
contributes their value scaled down; anything else contributes nothing. -/
def parseFrac : List Char → ℚ
  | '.' :: rest =>
      (digitsVal (rest.takeWhile Char.isDigit) : ℚ) / pow10 (rest.takeWhile Char.isDigit).length
  | _ => 0

/-- Unsigned part of parseFloat: leading digits, optionally a dot and
fractional digits.  Modelled for the plain decimal numerals this program
produces (no exponents, no leading whitespace). -/
def parseUnsigned (l : List Char) : ℚ :=
  (digitsVal (l.takeWhile Char.isDigit) : ℚ) + parseFrac (l.dropWhile Char.isDigit)

/-- JavaScript parseFloat, modelled for the decimal numerals this program
produces: an optional minus sign then an unsigned decimal numeral. -/
def parseFloatChars (l : List Char) : ℚ :=
  match l with
  | [] => 0
  | c :: rest => if c = '-' then -(parseUnsigned rest) else parseUnsigned (c :: rest)

/-- JavaScript parseFloat on a string. -/
def jsParseFloat (s : String) : ℚ := parseFloatChars s.data

/-- JavaScript String.prototype.padStart(n) with spaces: pads on the left up
to length n, longer strings are returned unchanged. -/
def padStart (s : String) (n : ℕ) : String :=
  String.mk (List.replicate (n - s.data.length) ' ') ++ s

/-- JavaScript String.prototype.padEnd(n) with spaces: pads on the right up
to length n, longer strings are returned unchanged (never truncated). -/
def padEnd (s : String) (n : ℕ) : String :=
  s ++ String.mk (List.replicate (n - s.data.length) ' ')

/-- One entry of the `tests` registry array (src/node/index.js:158-196):
a display name and the declared logical operation count passed to the
throughput computation.  The workload body itself is timed by the oracle. -/
structure TestDescriptor where
  name : String
  iterations : ℚ
deriving DecidableEq, Repr

/-- Constant ITERATIONS = 1_000_000 (src/node/index.js:3). -/
def ITERATIONS : ℚ := 1000000

/-- The registry literal of src/node/index.js:158-196, in source order. -/
def tests : List TestDescriptor :=
  [⟨"JSON Stringify/Parse", ITERATIONS⟩,
   ⟨"String Manipulation", ITERATIONS / 10⟩,
   ⟨"Array Operations", ITERATIONS / 100⟩,
   ⟨"Object Creation", ITERATIONS⟩,
   ⟨"Math Operations", ITERATIONS⟩,
   ⟨"RegExp Operations", ITERATIONS / 10⟩,
   ⟨"Function Calls", ITERATIONS⟩,
   ⟨"Buffer/TypedArray", ITERATIONS / 100⟩,
   ⟨"Set/Map Operations", ITERATIONS / 100⟩]

/-- Outcome of invoking a workload: the elapsed milliseconds it returns, or
a thrown / rejected error. -/
inductive CallResult where
  | ok (elapsed : ℚ)
  | err (e : String)
deriving DecidableEq, Repr

/-- Timing oracle for the synchronous workloads: maps (test index,
invocation index) to that invocation's outcome.  Invocation 0 is the
warm-up call at src/node/index.js:202, invocation 1 the measured call at
line 205. -/
def Oracle : Type := ℕ → ℕ → CallResult

/-- Oracle on which every invocation succeeds, with elapsed times f. -/
def okOracle (f : ℕ → ℕ → ℚ) : Oracle := fun i k => CallResult.ok (f i k)

/-- Oracle on which the tests before index i succeed with elapsed times f
and every invocation from test i onward throws e (so the warm-up call of
test i is the first failing invocation). -/
def failOracle (f : ℕ → ℕ → ℚ) (i : ℕ) (e : String) : Oracle :=
  fun j k => if j < i then CallResult.ok (f j k) else CallResult.err e

/-- Oracle on which the tests before index i succeed with elapsed times f
and test i's warm-up call also succeeds, but its measured call throws e
(so the measured run of test i is the first failing invocation). -/
def failOracleMeasured (f : ℕ → ℕ → ℚ) (i : ℕ) (e : String) : Oracle :=
  fun j k =>
    if j < i ∨ (j = i ∧ k = 0) then CallResult.ok (f j k) else CallResult.err e

/-- Async oracle: outcome of the k-th invocation of testAsyncOperations. -/
def AsyncOracle : Type := ℕ → CallResult

/-- Async oracle that resolves with elapsed time tA. -/
def okAsync (tA : ℚ) : AsyncOracle := fun _ => CallResult.ok tA

/-- One element of the `results` array (src/node/index.js:208-212): the
name, the elapsed time already formatted by time.toFixed(2), and the
throughput already formatted by .toFixed(0) — both stored as strings. -/
structure TestResult where
  name : String
  time : String
  opsPerSec : String
deriving DecidableEq, Repr

/-- The result entry pushed for a descriptor measured at `time`
(src/node/index.js:205-212). -/
def measuredResult (t : TestDescriptor) (time : ℚ) : TestResult :=
  ⟨t.name, toFixed2Str time, toFixed0Str (opsPerSecJS t.iterations time)⟩

/-- The fixed-width report row of src/node/index.js:214-216 and :223-225:
name.padEnd(25), a space, time.toFixed(2).padStart(10), ' ms  ',
opsPerSec.padStart(15), ' ops/sec'. -/
def formatRow (name timeStr opsStr : String) : String :=
  padEnd name 25 ++ " " ++ padStart timeStr 10 ++ " ms  " ++ padStart opsStr 15 ++ " ops/sec"

/-- Report row printed for a stored result. -/
def rowLine (r : TestResult) : String := formatRow r.name r.time r.opsPerSec

/-- Accumulated state of the for-loop of src/node/index.js:200-217: printed
row lines, the results array, the trace of workload invocations
(test index, invocation index) in call order, and the first thrown error. -/
structure SyncAcc where
  lines : List String
  results : List TestResult
  trace : List (ℕ × ℕ)
  error : Option String
deriving DecidableEq, Repr

/-- The for-loop of src/node/index.js:200-217 starting at test index i:
for each descriptor, invoke the workload once as a discarded warm-up
(line 202), invoke it again measured (line 205), compute the throughput
string (line 206), push the result (lines 208-212) and print one row
(lines 214-216).  A thrown error aborts the loop immediately. -/
def runSync (O : Oracle) : ℕ → List TestDescriptor → SyncAcc
  | _, [] => ⟨[], [], [], none⟩
  | i, t :: rest =>
    match O i 0 with
    | CallResult.err e => ⟨[], [], [(i, 0)], some e⟩
    | CallResult.ok _ =>
      match O i 1 with
      | CallResult.err e => ⟨[], [], [(i, 0), (i, 1)], some e⟩
      | CallResult.ok time =>
        let r := measuredResult t time
        let s := runSync O (i + 1) rest
        ⟨rowLine r :: s.lines, r :: s.results, (i, 0) :: (i, 1) :: s.trace, s.error⟩

/-- Horizontal rule: "═".repeat(60) (src/node/index.js:153 etc.). -/
def hrule : String := String.mk (List.replicate 60 '═')

/-- Title line of src/node/index.js:154 for a given runtime label. -/
def titleLine (runtime version : String) : String :=
  "  Performance Stress Test - " ++ runtime ++ " " ++ version

/-- Observable outcome of one runBenchmarks() invocation: the console
output, the results array, every printed test row in print order, the
synchronous invocation trace, the number of testAsyncOperations
invocations, the reduce-computed total of src/node/index.js:230, and the
propagated error if some workload threw. -/
structure BenchResult where
  stdout : List String
  results : List TestResult
  rows : List TestResult
  syncTrace : List (ℕ × ℕ)
  asyncCalls : ℕ
  totalRuntime : ℚ
  error : Option String
deriving DecidableEq, Repr

/-- The async result row of src/node/index.js:223-225: fixed label
"Async/Promise", measured time, throughput from the constant 10000. -/
def asyncResult (tA : ℚ) : TestResult :=
  ⟨"Async/Promise", toFixed2Str tA, toFixed0Str (opsPerSecJS 10000 tA)⟩

/-- The body of runBenchmarks (src/node/index.js:149-233) over an explicit
registry: header (lines 153-156), the uniform loop (200-217), the async
test outside the loop (219-225), and the footer whose total reduces
parseFloat(r.time) over the synchronous results only (227-232).  A thrown
error propagates immediately: nothing after it runs. -/
def runBenchmarksWith (ts : List TestDescriptor) (runtime version : String)
    (O : Oracle) (A : AsyncOracle) : BenchResult :=
  let header : List String := [hrule, titleLine runtime version, hrule, ""]
  let s := runSync O 0 ts
  match s.error with
  | some e => ⟨header ++ s.lines, s.results, s.results, s.trace, 0, 0, some e⟩
  | none =>
    let pre := header ++ s.lines ++ ["", "Running async operations test..."]
    match A 0 with
    | CallResult.err e => ⟨pre, s.results, s.results, s.trace, 1, 0, some e⟩
    | CallResult.ok tA =>
      let aRes := asyncResult tA
      let total := s.results.foldl (fun sum r => sum + jsParseFloat r.time) 0
      let totalStr := "  Total Runtime: " ++ toFixed2Str total ++ " ms"
      ⟨pre ++ [rowLine aRes, "", hrule, totalStr, hrule],
       s.results, s.results ++ [aRes], s.trace, 1, total, none⟩

/-- runBenchmarks() itself, over the registry literal of the source. -/
def runBenchmarks (runtime version : String) (O : Oracle) (A : AsyncOracle) : BenchResult :=
  runBenchmarksWith tests runtime version O A

/-- Observable outcome of the whole process: the benchmark run, what was
written to the error stream, and the process exit status. -/
structure ProcResult where
  run : BenchResult
  errout : List String
  exitCode : ℕ
deriving DecidableEq, Repr

/-- Top-level entry `runBenchmarks().catch(console.error)`
(src/node/index.js:236) over an explicit registry: a rejection is passed to
console.error — written to the error stream — and is thereby handled, so
the event loop drains normally and the process exits with status 0 in both
branches. -/
def mainEntryWith (ts : List TestDescriptor) (runtime version : String)
    (O : Oracle) (A : AsyncOracle) : ProcResult :=
  let r := runBenchmarksWith ts runtime version O A
  match r.error with
  | some e => ⟨r, [e], 0⟩
  | none => ⟨r, [], 0⟩

/-- The program's actual entry point (src/node/index.js:236). -/
def mainEntry (runtime version : String) (O : Oracle) (A : AsyncOracle) : ProcResult :=
  mainEntryWith tests runtime version O A

/-- A JavaScript promise that has been initiated; in this program every
sub-operation resolves immediately with its value (src/node/index.js:76-78). -/
inductive JSPromise (α : Type) where
  | resolved (a : α)
deriving DecidableEq, Repr

/-- Value of a resolved promise. -/
def JSPromise.val {α : Type} : JSPromise α → α
  | JSPromise.resolved a => a

/-- The batch built inside testAsyncOperations (src/node/index.js:75-79):
Array.from({length: 10000}, ...) eagerly initiates all 10000 sub-operations
— each a promise resolving immediately with i * 2 — before anything is
awaited. -/
def asyncBatch : List (JSPromise ℕ) :=
  (List.range 10000).map fun i => JSPromise.resolved (i * 2)

/-- Promise.all (src/node/index.js:81): awaits the already-initiated batch
as a single joined completion holding every sub-operation's value. -/
def promiseAll {α : Type} (ps : List (JSPromise α)) : JSPromise (List α) :=
  JSPromise.resolved (ps.map JSPromise.val)

/-- The trace left by running n tests from index i, each invoked exactly
twice: warm-up (invocation 0) then measured run (invocation 1). -/
def pairTrace : ℕ → ℕ → List (ℕ × ℕ)
  | _, 0 => []
  | i, n + 1 => (i, 0) :: (i, 1) :: pairTrace (i + 1) n

/-- Expected results array for a registry whose test at absolute index j
measures elapsed time f j 1 (the warm-up values f j 0 are discarded). -/
def syncResultsSpec (f : ℕ → ℕ → ℚ) : ℕ → List TestDescriptor → List TestResult
  | _, [] => []
  | i, t :: rest => measuredResult t (f i 1) :: syncResultsSpec f (i + 1) rest

/-- Sum of the 2-decimal rounded measured times of a registry. -/
def sumRound2 (f : ℕ → ℕ → ℚ) : ℕ → List TestDescriptor → ℚ
  | _, [] => 0
  | i, _ :: rest => round2 (f i 1) + sumRound2 f (i + 1) rest

/-- The footer total of src/node/index.js:230 for a successful run:
results.reduce((sum, r) => sum + parseFloat(r.time), 0). -/
def totalOf (f : ℕ → ℕ → ℚ) (ts : List TestDescriptor) : ℚ :=
  (syncResultsSpec f 0 ts).foldl (fun sum r => sum + jsParseFloat r.time) 0

/-- Row format as claim C7 words it (for comparison with the source's
format): name left-padded/truncated to a 25-column field, directly followed
by the 10-column elapsed field, ' ms  ', the 15-column throughput field and
' ops/sec'. -/
def claimedRowC7 (name timeStr opsStr : String) : String :=
  padStart (String.mk (name.data.take 25)) 25 ++ padStart timeStr 10 ++ " ms  " ++
    padStart opsStr 15 ++ " ops/sec"

/-- A digit character's code point is 48 plus the digit. -/
theorem digitChar_toNat {d : ℕ} (h : d < 10) : (digitChar d).toNat = 48 + d := by
  interval_cases d <;> rfl

/-- Digit characters satisfy Char.isDigit. -/
theorem digitChar_isDigit {d : ℕ} (h : d < 10) : (digitChar d).isDigit = true := by
  interval_cases d <;> rfl

/-- Folding the digit-accumulation step from an arbitrary accumulator. -/
theorem foldl_digits (l : List Char) :
    ∀ a : ℕ, l.foldl (fun a c => 10 * a + (c.toNat - 48)) a =
      a * 10 ^ l.length + digitsVal l := by
  induction l with
  | nil => intro a; simp [digitsVal]
  | cons c l ih =>
      intro a
      have h0 : digitsVal (c :: l) = (c.toNat - 48) * 10 ^ l.length + digitsVal l := by
        show List.foldl _ (10 * 0 + (c.toNat - 48)) l = _
        rw [ih]
        ring_nf
      show List.foldl _ (10 * a + (c.toNat - 48)) l = _
      rw [ih, h0, List.length_cons]
      ring

/-- Value computed by the fuel-driven digit extraction. -/
theorem natCharsGo_val :
    ∀ (fuel n : ℕ) (acc : List Char), n < fuel →
      digitsVal (natCharsGo fuel n acc) = n * 10 ^ acc.length + digitsVal acc := by
  intro fuel
  induction fuel with
  | zero => intro n acc h; omega
  | succ fuel ih =>
      intro n acc h
      match n with
      | 0 => simp [natCharsGo]
      | n + 1 =>
          have hdiv : (n + 1) / 10 < fuel :=
            lt_of_lt_of_le (Nat.div_lt_self (by omega) (by omega)) (by omega)
          have hmod : (n + 1) % 10 < 10 := Nat.mod_lt _ (by omega)
          rw [natCharsGo, ih _ _ hdiv]
          have hcons : digitsVal (digitChar ((n + 1) % 10) :: acc) =
              ((n + 1) % 10) * 10 ^ acc.length + digitsVal acc := by
            show List.foldl _ (10 * 0 + ((digitChar ((n + 1) % 10)).toNat - 48)) acc = _
            rw [foldl_digits, digitChar_toNat hmod]
            have h48 : 10 * 0 + (48 + (n + 1) % 10 - 48) = (n + 1) % 10 := by omega
            rw [h48]
          rw [List.length_cons, hcons]
          have key : ∀ q r k v : ℕ, 10 * q + r = n + 1 →
              q * 10 ^ (k + 1) + (r * 10 ^ k + v) = (n + 1) * 10 ^ k + v := by
            intro q r k v hqr
            rw [← hqr]
            ring
          exact key _ _ _ _ (Nat.div_add_mod (n + 1) 10)

/-- The decimal numeral of n evaluates back to n. -/
theorem digitsVal_natChars (n : ℕ) : digitsVal (natChars n) = n := by
  match n with
  | 0 => decide
  | n + 1 =>
      show digitsVal (natCharsGo (n + 2) (n + 1) []) = n + 1
      rw [natCharsGo_val (n + 2) (n + 1) [] (by omega)]
      simp [digitsVal]

/-- Every character the fuel-driven extraction emits is a digit. -/
theorem natCharsGo_digits :
    ∀ (fuel n : ℕ) (acc : List Char), (∀ c ∈ acc, c.isDigit = true) →
      ∀ c ∈ natCharsGo fuel n acc, c.isDigit = true := by
  intro fuel
  induction fuel with
  | zero => intro n acc hacc; simpa [natCharsGo] using hacc
  | succ fuel ih =>
      intro n acc hacc
      match n with
      | 0 => simpa [natCharsGo] using hacc
      | n + 1 =>
          rw [natCharsGo]
          refine ih _ _ ?_
          intro c hc
          rcases List.mem_cons.mp hc with h | h
          · subst h; exact digitChar_isDigit (Nat.mod_lt _ (by omega))
          · exact hacc c h

/-- Every character of a decimal numeral is a digit. -/
theorem natChars_digits (n : ℕ) : ∀ c ∈ natChars n, c.isDigit = true := by
  match n with
  | 0 => intro c hc; simp [natChars] at hc; subst hc; rfl
  | n + 1 => exact natCharsGo_digits (n + 2) (n + 1) [] (by simp)

/-- The fuel-driven extraction never shrinks the accumulator. -/
theorem natCharsGo_length :
    ∀ (fuel n : ℕ) (acc : List Char), acc.length ≤ (natCharsGo fuel n acc).length := by
  intro fuel
  induction fuel with
  | zero => intro n acc; simp [natCharsGo]
  | succ fuel ih =>
      intro n acc
      match n with
      | 0 => simp [natCharsGo]
      | n + 1 =>
          rw [natCharsGo]
          calc acc.length ≤ (digitChar ((n + 1) % 10) :: acc).length := by simp
            _ ≤ _ := ih _ _

/-- Decimal numerals are never empty. -/
theorem natChars_ne_nil (n : ℕ) : natChars n ≠ [] := by
  match n with
  | 0 => simp [natChars]
  | n + 1 =>
      show natCharsGo (n + 2) (n + 1) [] ≠ []
      rw [natCharsGo]
      intro hnil
      have := natCharsGo_length (n + 1) ((n + 1) / 10) (digitChar ((n + 1) % 10) :: [])
      rw [hnil] at this
      simp at this

/-- takeWhile over an all-true prefix followed by a false element. -/
theorem takeWhile_append_cons (p : Char → Bool) :
    ∀ (xs : List Char) (y : Char) (ys : List Char), (∀ c ∈ xs, p c = true) → p y = false →
      (xs ++ y :: ys).takeWhile p = xs := by
  intro xs
  induction xs with
  | nil => intro y ys _ hy; simp [List.takeWhile_cons, hy]
  | cons x xs ih =>
      intro y ys hx hy
      have hpx : p x = true := hx x (by simp)
      simp only [List.cons_append, List.takeWhile_cons, hpx]
      simp [ih y ys (fun c hc => hx c (by simp [hc])) hy]

/-- dropWhile over an all-true prefix followed by a false element. -/
theorem dropWhile_append_cons (p : Char → Bool) :
    ∀ (xs : List Char) (y : Char) (ys : List Char), (∀ c ∈ xs, p c = true) → p y = false →
      (xs ++ y :: ys).dropWhile p = y :: ys := by
  intro xs
  induction xs with
  | nil => intro y ys _ hy; simp [List.dropWhile_cons, hy]
  | cons x xs ih =>
      intro y ys hx hy
      have hpx : p x = true := hx x (by simp)
      simp only [List.cons_append, List.dropWhile_cons, hpx]
      exact ih y ys (fun c hc => hx c (by simp [hc])) hy

/-- Unsigned parse of a toFixed(2) numeral of hundredths m gives m / 100. -/
theorem parseUnsigned_fixed2 (m : ℕ) : parseUnsigned (fixed2Chars m) = (m : ℚ) / 100 := by
  have hdot : ('.').isDigit = false := rfl
  have hdigits := natChars_digits (m / 100)
  have hd1 : (m / 10 % 10) < 10 := Nat.mod_lt _ (by omega)
  have hd2 : (m % 10) < 10 := Nat.mod_lt _ (by omega)
  have htake := takeWhile_append_cons Char.isDigit (natChars (m / 100)) '.'
    [digitChar (m / 10 % 10), digitChar (m % 10)] hdigits hdot
  have hdrop := dropWhile_append_cons Char.isDigit (natChars (m / 100)) '.'
    [digitChar (m / 10 % 10), digitChar (m % 10)] hdigits hdot
  have hfp : List.takeWhile Char.isDigit [digitChar (m / 10 % 10), digitChar (m % 10)] =
      [digitChar (m / 10 % 10), digitChar (m % 10)] := by
    simp [List.takeWhile_cons, digitChar_isDigit hd1, digitChar_isDigit hd2]
  have hfrac : digitsVal [digitChar (m / 10 % 10), digitChar (m % 10)] = m % 100 := by
    show List.foldl _ _ _ = _
    simp only [List.foldl_cons, List.foldl_nil, digitChar_toNat hd1, digitChar_toNat hd2]
    omega
  have hdotfrac : parseFrac ('.' :: [digitChar (m / 10 % 10), digitChar (m % 10)]) =
      (digitsVal [digitChar (m / 10 % 10), digitChar (m % 10)] : ℚ) / pow10 2 := by
    rw [parseFrac, hfp]
    simp
  rw [parseUnsigned]
  show (digitsVal ((natChars (m / 100) ++ '.' ::
      [digitChar (m / 10 % 10), digitChar (m % 10)]).takeWhile Char.isDigit) : ℚ) +
      parseFrac ((natChars (m / 100) ++ '.' ::
      [digitChar (m / 10 % 10), digitChar (m % 10)]).dropWhile Char.isDigit) = (m : ℚ) / 100
  rw [htake, hdrop, hdotfrac, hfrac, digitsVal_natChars]
  have hpow : pow10 2 = 100 := by norm_num [pow10]
  rw [hpow]
  have h100 : ((m / 100 : ℕ) : ℚ) * 100 + ((m % 100 : ℕ) : ℚ) = (m : ℚ) := by
    have hnat : (m / 100) * 100 + m % 100 = m := by omega
    exact_mod_cast congrArg (fun k : ℕ => (k : ℚ)) hnat
  field_simp
  linarith [h100]

/-- parseFloat reads a toFixed(2) numeral of hundredths m back as m / 100. -/
theorem parseFloatChars_fixed2 (m : ℕ) : parseFloatChars (fixed2Chars m) = (m : ℚ) / 100 := by
  obtain ⟨c, cs, hcons⟩ := List.exists_cons_of_ne_nil (natChars_ne_nil (m / 100))
  have hcd : c.isDigit = true := natChars_digits (m / 100) c (by rw [hcons]; simp)
  have hcne : ¬ c = '-' := by
    intro h
    rw [h] at hcd
    exact absurd hcd (by decide)
  have hshape : fixed2Chars m =
      c :: (cs ++ '.' :: [digitChar (m / 10 % 10), digitChar (m % 10)]) := by
    rw [fixed2Chars, hcons]
    simp
  rw [hshape]
  simp only [parseFloatChars]
  rw [if_neg hcne]
  have hback : c :: (cs ++ '.' :: [digitChar (m / 10 % 10), digitChar (m % 10)]) =
      fixed2Chars m := hshape.symm
  rw [hback]
  exact parseUnsigned_fixed2 m

/-- jsRound of a nonnegative rational is nonnegative. -/
theorem jsRound_nonneg {q : ℚ} (h : 0 ≤ q) : 0 ≤ jsRound q := by
  rw [jsRound, Int.le_floor]
  push_cast
  linarith

/-- parseFloat inverts toFixed(2) up to the 2-decimal rounding: re-parsing
the stored time string recovers exactly the displayed (rounded) value. -/
theorem jsParseFloat_toFixed2 (q : ℚ) (h : 0 ≤ q) :
    jsParseFloat (toFixed2Str q) = round2 q := by
  have hz : 0 ≤ jsRound (100 * q) := jsRound_nonneg (by positivity)
  rw [toFixed2Str, jsParseFloat]
  simp only [if_neg (not_lt.mpr hz)]
  show parseFloatChars (fixed2Chars (jsRound (100 * q)).toNat) = round2 q
  rw [parseFloatChars_fixed2, round2]
  congr 1
  exact_mod_cast Int.toNat_of_nonneg hz

/-- With a nonzero elapsed time the throughput string is the decimal
numeral of the rounded division. -/
theorem toFixed0Str_pos (L E : ℚ) (h : E ≠ 0) :
    toFixed0Str (opsPerSecJS L E) = intToDecStr (jsRound (L / (E / 1000))) := by
  rw [opsPerSecJS, if_neg h, toFixed0Str]

/-- Characterization of the uniform loop when every invocation succeeds:
each test contributes one printed row and one result computed from its
measured (second) invocation, and the trace pairs a warm-up with a measured
call per test in registry order. -/
theorem runSync_ok (f : ℕ → ℕ → ℚ) :
    ∀ (ts : List TestDescriptor) (i : ℕ),
      runSync (okOracle f) i ts =
        ⟨(syncResultsSpec f i ts).map rowLine, syncResultsSpec f i ts,
         pairTrace i ts.length, none⟩ := by
  intro ts
  induction ts with
  | nil => intro i; rfl
  | cons t rest ih =>
      intro i
      show (let r := measuredResult t (f i 1)
            let s := runSync (okOracle f) (i + 1) rest
            SyncAcc.mk (rowLine r :: s.lines) (r :: s.results)
              ((i, 0) :: (i, 1) :: s.trace) s.error) = _
      rw [ih (i + 1)]
      rfl

/-- Characterization of a fully successful run: header, one row per test,
the async block, and the footer, with the results array, print-order rows,
trace, a single async invocation and the reduce-computed total. -/
theorem runWith_ok (ts : List TestDescriptor) (rt v : String) (f : ℕ → ℕ → ℚ) (tA : ℚ) :
    runBenchmarksWith ts rt v (okOracle f) (okAsync tA) =
      ⟨[hrule, titleLine rt v, hrule, ""] ++ (syncResultsSpec f 0 ts).map rowLine ++
        ["", "Running async operations test...", rowLine (asyncResult tA), "", hrule,
         "  Total Runtime: " ++ toFixed2Str (totalOf f ts) ++ " ms", hrule],
       syncResultsSpec f 0 ts, syncResultsSpec f 0 ts ++ [asyncResult tA],
       pairTrace 0 ts.length, 1, totalOf f ts, none⟩ := by
  rw [runBenchmarksWith, runSync_ok f ts 0]
  show (let pre := _
        let aRes := asyncResult tA
        let total := (syncResultsSpec f 0 ts).foldl (fun sum r => sum + jsParseFloat r.time) 0
        let totalStr := "  Total Runtime: " ++ toFixed2Str total ++ " ms"
        BenchResult.mk (pre ++ [rowLine aRes, "", hrule, totalStr, hrule])
          (syncResultsSpec f 0 ts) (syncResultsSpec f 0 ts ++ [aRes])
          (pairTrace 0 ts.length) 1 total none) = _
  rw [totalOf]
  simp [List.append_assoc]

/-- Element j of the expected results array is the j-th descriptor measured
at its own second invocation. -/
theorem syncResultsSpec_getElem (f : ℕ → ℕ → ℚ) :
    ∀ (ts : List TestDescriptor) (i j : ℕ),
      (syncResultsSpec f i ts)[j]? = ts[j]?.map fun t => measuredResult t (f (i + j) 1) := by
  intro ts
  induction ts with
  | nil => intro i j; simp [syncResultsSpec]
  | cons t rest ih =>
      intro i j
      match j with
      | 0 => simp [syncResultsSpec]
      | j + 1 =>
          have hc : syncResultsSpec f i (t :: rest) =
              measuredResult t (f i 1) :: syncResultsSpec f (i + 1) rest := rfl
          rw [hc, List.getElem?_cons_succ, ih (i + 1) j]
          have harith : i + 1 + j = i + (j + 1) := by omega
          rw [harith]
          simp

/-- The results array has one entry per registered descriptor. -/
theorem syncResultsSpec_length (f : ℕ → ℕ → ℚ) :
    ∀ (ts : List TestDescriptor) (i : ℕ), (syncResultsSpec f i ts).length = ts.length := by
  intro ts
  induction ts with
  | nil => intro i; rfl
  | cons t rest ih => intro i; simp [syncResultsSpec, ih (i + 1)]

/-- The expected results carry the descriptor names in registry order. -/
theorem syncResultsSpec_map_name (f : ℕ → ℕ → ℚ) :
    ∀ (ts : List TestDescriptor) (i : ℕ),
      (syncResultsSpec f i ts).map TestResult.name = ts.map TestDescriptor.name := by
  intro ts
  induction ts with
  | nil => intro i; rfl
  | cons t rest ih => intro i; simp [syncResultsSpec, measuredResult, ih (i + 1)]

/-- The expected results depend only on the measured (second) invocations:
the warm-up values are discarded. -/
theorem syncResultsSpec_warmup_blind (f g : ℕ → ℕ → ℚ) (hfg : ∀ j, f j 1 = g j 1) :
    ∀ (ts : List TestDescriptor) (i : ℕ),
      syncResultsSpec f i ts = syncResultsSpec g i ts := by
  intro ts
  induction ts with
  | nil => intro i; rfl
  | cons t rest ih => intro i; simp [syncResultsSpec, hfg i, ih (i + 1)]

/-- Folding parseFloat over the stored time strings sums the 2-decimal
rounded measured times. -/
theorem foldl_parse (f : ℕ → ℕ → ℚ) (h : ∀ j, 0 ≤ f j 1) :
    ∀ (ts : List TestDescriptor) (i : ℕ) (a : ℚ),
      (syncResultsSpec f i ts).foldl (fun sum r => sum + jsParseFloat r.time) a =
        a + sumRound2 f i ts := by
  intro ts
  induction ts with
  | nil => intro i a; simp [syncResultsSpec, sumRound2]
  | cons t rest ih =>
      intro i a
      show (syncResultsSpec f (i + 1) rest).foldl _
          (a + jsParseFloat (measuredResult t (f i 1)).time) = _
      have ht : (measuredResult t (f i 1)).time = toFixed2Str (f i 1) := rfl
      rw [ht, jsParseFloat_toFixed2 (f i 1) (h i), ih (i + 1), sumRound2]
      ring

/-- The reduce-computed total is the sum of the displayed elapsed values. -/
theorem totalOf_eq_sumRound2 (f : ℕ → ℕ → ℚ) (h : ∀ j, 0 ≤ f j 1)
    (ts : List TestDescriptor) : totalOf f ts = sumRound2 f 0 ts := by
  rw [totalOf, foldl_parse f h ts 0 0, zero_add]

/-- Characterization of the loop when the warm-up invocation of the test
right after a prefix of successes throws: the loop stops there, keeping
only the earlier rows and recording the failing warm-up call. -/
theorem runSync_failfrom (f : ℕ → ℕ → ℚ) (e : String) :
    ∀ (ts1 : List TestDescriptor) (t : TestDescriptor) (ts2 : List TestDescriptor) (b : ℕ),
      runSync (failOracle f (b + ts1.length) e) b (ts1 ++ t :: ts2) =
        ⟨(syncResultsSpec f b ts1).map rowLine, syncResultsSpec f b ts1,
         pairTrace b ts1.length ++ [(b + ts1.length, 0)], some e⟩ := by
  intro ts1
  induction ts1 with
  | nil =>
      intro t ts2 b
      show runSync (failOracle f (b + 0) e) b (t :: ts2) = _
      have hb : failOracle f (b + 0) e b 0 = CallResult.err e := by
        rw [failOracle, if_neg (by omega)]
      rw [runSync, hb]
      simp [syncResultsSpec, pairTrace]
  | cons t1 ts1 ih =>
      intro t ts2 b
      have hlen : b + (t1 :: ts1).length = (b + 1) + ts1.length := by simp; omega
      rw [hlen]
      have h0 : failOracle f ((b + 1) + ts1.length) e b 0 = CallResult.ok (f b 0) := by
        rw [failOracle, if_pos (by omega)]
      have h1 : failOracle f ((b + 1) + ts1.length) e b 1 = CallResult.ok (f b 1) := by
        rw [failOracle, if_pos (by omega)]
      show runSync (failOracle f ((b + 1) + ts1.length) e) b ((t1 :: ts1) ++ t :: ts2) = _
      rw [List.cons_append, runSync, h0, h1]
      rw [ih t ts2 (b + 1)]
      show SyncAcc.mk (rowLine (measuredResult t1 (f b 1)) ::
          (syncResultsSpec f (b + 1) ts1).map rowLine)
          (measuredResult t1 (f b 1) :: syncResultsSpec f (b + 1) ts1)
          ((b, 0) :: (b, 1) :: (pairTrace (b + 1) ts1.length ++ [((b + 1) + ts1.length, 0)]))
          (some e) = _
      simp [syncResultsSpec, pairTrace]

/-- Characterization of the loop when, after a prefix of successes, the
next test's warm-up succeeds but its measured call throws: the loop stops
there, keeping only the earlier rows, and records both the successful
warm-up call and the failing measured call of that test. -/
theorem runSync_failMeasured (f : ℕ → ℕ → ℚ) (e : String) :
    ∀ (ts1 : List TestDescriptor) (t : TestDescriptor) (ts2 : List TestDescriptor) (b : ℕ),
      runSync (failOracleMeasured f (b + ts1.length) e) b (ts1 ++ t :: ts2) =
        ⟨(syncResultsSpec f b ts1).map rowLine, syncResultsSpec f b ts1,
         pairTrace b ts1.length ++ [(b + ts1.length, 0), (b + ts1.length, 1)], some e⟩ := by
  intro ts1
  induction ts1 with
  | nil =>
      intro t ts2 b
      show runSync (failOracleMeasured f (b + 0) e) b (t :: ts2) = _
      have h0 : failOracleMeasured f (b + 0) e b 0 = CallResult.ok (f b 0) := by
        rw [failOracleMeasured, if_pos (by omega)]
      have h1 : failOracleMeasured f (b + 0) e b 1 = CallResult.err e := by
        rw [failOracleMeasured, if_neg (by omega)]
      rw [runSync, h0, h1]
      simp [syncResultsSpec, pairTrace]
  | cons t1 ts1 ih =>
      intro t ts2 b
      have hlen : b + (t1 :: ts1).length = (b + 1) + ts1.length := by simp; omega
      rw [hlen]
      have h0 : failOracleMeasured f ((b + 1) + ts1.length) e b 0 = CallResult.ok (f b 0) := by
        rw [failOracleMeasured, if_pos (by omega)]
      have h1 : failOracleMeasured f ((b + 1) + ts1.length) e b 1 = CallResult.ok (f b 1) := by
        rw [failOracleMeasured, if_pos (by omega)]
      show runSync (failOracleMeasured f ((b + 1) + ts1.length) e) b
          ((t1 :: ts1) ++ t :: ts2) = _
      rw [List.cons_append, runSync, h0, h1]
      rw [ih t ts2 (b + 1)]
      show SyncAcc.mk (rowLine (measuredResult t1 (f b 1)) ::
          (syncResultsSpec f (b + 1) ts1).map rowLine)
          (measuredResult t1 (f b 1) :: syncResultsSpec f (b + 1) ts1)
          ((b, 0) :: (b, 1) :: (pairTrace (b + 1) ts1.length ++
            [((b + 1) + ts1.length, 0), ((b + 1) + ts1.length, 1)]))
          (some e) = _
      simp [syncResultsSpec, pairTrace]

/-- Promise.all on the eagerly-built batch resolves with every
sub-operation's value i * 2 in order. -/
theorem promiseAll_asyncBatch :
    promiseAll asyncBatch = JSPromise.resolved ((List.range 10000).map fun i => i * 2) := by
  rw [promiseAll, asyncBatch, List.map_map]
  rfl

/-- The batch initiates exactly 10000 sub-operations. -/
theorem asyncBatch_length : asyncBatch.length = 10000 := by
  rw [asyncBatch, List.length_map, List.length_range]

/-- Characterization of a run whose first failure is the warm-up call of
the test following a prefix of successes: output stops after the prefix
rows, the failing test gets no row, the async test never runs, and the
error propagates. -/
theorem runWith_failfrom (ts1 : List TestDescriptor) (t : TestDescriptor)
    (ts2 : List TestDescriptor) (rt v : String) (f : ℕ → ℕ → ℚ) (e : String) (A : AsyncOracle) :
    runBenchmarksWith (ts1 ++ t :: ts2) rt v (failOracle f ts1.length e) A =
      ⟨[hrule, titleLine rt v, hrule, ""] ++ (syncResultsSpec f 0 ts1).map rowLine,
       syncResultsSpec f 0 ts1, syncResultsSpec f 0 ts1,
       pairTrace 0 ts1.length ++ [(ts1.length, 0)], 0, 0, some e⟩ := by
  have hrs := runSync_failfrom f e ts1 t ts2 0
  rw [Nat.zero_add] at hrs
  rw [runBenchmarksWith, hrs]

/-- Characterization of a run whose first failure is the measured call of
the test following a prefix of successes (its warm-up succeeded): output
stops after the prefix rows, the failing test gets no row, the async test
never runs, and the error propagates. -/
theorem runWith_failMeasured (ts1 : List TestDescriptor) (t : TestDescriptor)
    (ts2 : List TestDescriptor) (rt v : String) (f : ℕ → ℕ → ℚ) (e : String) (A : AsyncOracle) :
    runBenchmarksWith (ts1 ++ t :: ts2) rt v (failOracleMeasured f ts1.length e) A =
      ⟨[hrule, titleLine rt v, hrule, ""] ++ (syncResultsSpec f 0 ts1).map rowLine,
       syncResultsSpec f 0 ts1, syncResultsSpec f 0 ts1,
       pairTrace 0 ts1.length ++ [(ts1.length, 0), (ts1.length, 1)], 0, 0, some e⟩ := by
  have hrs := runSync_failMeasured f e ts1 t ts2 0
  rw [Nat.zero_add] at hrs
  rw [runBenchmarksWith, hrs]

/-- Characterization of a run in which every synchronous workload succeeds
and the asynchronous batch rejects: all synchronous rows print, the
announcement prints, the async row does not, and the error propagates. -/
theorem runWith_asyncfail (ts : List TestDescriptor) (rt v : String)
    (f : ℕ → ℕ → ℚ) (e : String) :
    runBenchmarksWith ts rt v (okOracle f) (fun _ => CallResult.err e) =
      ⟨[hrule, titleLine rt v, hrule, ""] ++ (syncResultsSpec f 0 ts).map rowLine ++
        ["", "Running async operations test..."],
       syncResultsSpec f 0 ts, syncResultsSpec f 0 ts, pairTrace 0 ts.length,
       1, 0, some e⟩ := by
  rw [runBenchmarksWith, runSync_ok f ts 0]

/-- Every result computed from a positive measured time stores a finite
decimal-numeral throughput. -/
theorem syncResultsSpec_ops_finite (f : ℕ → ℕ → ℚ) (hf : ∀ j, 0 < f j 1) :
    ∀ (ts : List TestDescriptor) (i : ℕ),
      ∀ r ∈ syncResultsSpec f i ts, ∃ n : ℤ, r.opsPerSec = intToDecStr n := by
  intro ts
  induction ts with
  | nil => intro i r hr; simp [syncResultsSpec] at hr
  | cons t rest ih =>
      intro i r hr
      rcases List.mem_cons.mp hr with h | h
      · subst h
        refine ⟨jsRound (t.iterations / (f i 1 / 1000)), ?_⟩
        show toFixed0Str (opsPerSecJS t.iterations (f i 1)) = _
        exact toFixed0Str_pos _ _ (ne_of_gt (hf i))
      · exact ih (i + 1) r h

/-- Claim C1: for every executed test descriptor with declared logical
operation count L and measured elapsed time E > 0 milliseconds, the
reported throughput opsPerSecond is exactly the decimal numeral of
round(L / (E/1000)), where round is the toFixed(0) rounding (nearest
integer, ties away from zero for the positive values involved). -/
theorem C1_opsPerSecond_rounded (ts : List TestDescriptor) (rt v : String)
    (f : ℕ → ℕ → ℚ) (tA : ℚ) (i : ℕ) (t : TestDescriptor)
    (hi : ts[i]? = some t) (hE : 0 < f i 1) :
    ((runBenchmarksWith ts rt v (okOracle f) (okAsync tA)).results[i]?).map
        TestResult.opsPerSec =
      some (intToDecStr (jsRound (t.iterations / (f i 1 / 1000)))) := by
  rw [runWith_ok]
  show ((syncResultsSpec f 0 ts)[i]?).map TestResult.opsPerSec = _
  rw [syncResultsSpec_getElem f ts 0 i, Nat.zero_add, hi]
  show some (toFixed0Str (opsPerSecJS t.iterations (f i 1))) = _
  rw [toFixed0Str_pos _ _ (ne_of_gt hE)]

/-- Witness for C1 at a concrete input: one descriptor with 1000 declared
operations measured at 1 ms reports round(1000 / 0.001) ops/sec. -/
theorem C1_opsPerSecond_rounded_witness :
    ([(⟨"noop", 1000⟩ : TestDescriptor)][0]? = some (⟨"noop", 1000⟩ : TestDescriptor)) ∧
    ((0 : ℚ) < 1) ∧
    ((runBenchmarksWith [⟨"noop", 1000⟩] "R" "V" (okOracle fun _ _ => 1)
        (okAsync 1)).results[0]?).map TestResult.opsPerSec =
      some (intToDecStr (jsRound ((1000 : ℚ) / (1 / 1000)))) :=
  ⟨rfl, by norm_num,
    C1_opsPerSecond_rounded [⟨"noop", 1000⟩] "R" "V" (fun _ _ => 1) 1 0 ⟨"noop", 1000⟩
      rfl (by norm_num)⟩

/-- Claim C2 counterexample: with two tests each measured at 1.004 ms the
footer total is 2.00 (the sum of the displayed 1.00 values) while the
exact sum of the measured elapsed times is 2.008, so the printed aggregate
does not equal the exact sum of the measured elapsedMillis values. -/
theorem C2_counterexample :
    (runBenchmarksWith [⟨"a", 1000⟩, ⟨"b", 1000⟩] "R" "V"
        (okOracle fun _ _ => 251 / 250) (okAsync 5)).totalRuntime = 2 ∧
    (251 / 250 : ℚ) + 251 / 250 = 502 / 250 ∧
    (2 : ℚ) ≠ 502 / 250 :=
  ⟨by decide, by norm_num, by norm_num⟩

/-- Claim C2 as amended: the footer total equals the sum over the
synchronous results only of the 2-decimal rounded (displayed) elapsed
values, and it excludes the asynchronous test's elapsed time — it is
invariant under changing the async elapsed time. -/
theorem C2_total_sync_rounded (ts : List TestDescriptor) (rt v : String)
    (f : ℕ → ℕ → ℚ) (tA tB : ℚ) (h : ∀ j, 0 ≤ f j 1) :
    (runBenchmarksWith ts rt v (okOracle f) (okAsync tA)).totalRuntime = sumRound2 f 0 ts ∧
    (runBenchmarksWith ts rt v (okOracle f) (okAsync tA)).totalRuntime =
      (runBenchmarksWith ts rt v (okOracle f) (okAsync tB)).totalRuntime := by
  constructor
  · rw [runWith_ok]
    exact totalOf_eq_sumRound2 f h ts
  · rw [runWith_ok, runWith_ok]

/-- Witness for C2's amended theorem at a concrete input. -/
theorem C2_total_sync_rounded_witness :
    (∀ _j : ℕ, (0 : ℚ) ≤ 1) ∧
    (runBenchmarksWith [⟨"noop", 1000⟩] "R" "V" (okOracle fun _ _ => 1)
        (okAsync 2)).totalRuntime = sumRound2 (fun _ _ => 1) 0 [⟨"noop", 1000⟩] :=
  ⟨fun _ => by norm_num,
    (C2_total_sync_rounded [⟨"noop", 1000⟩] "R" "V" (fun _ _ => 1) 2 3
      (fun _ => by norm_num)).1⟩

/-- Claim C3 counterexample: a descriptor registered with logicalOpCount 0
is not rejected — the run executes it and produces a report row (with
throughput 0) — and a measured time of 0 ms produces a row whose
throughput reads Infinity, so an Infinity-like throughput row can be
produced. -/
theorem C3_counterexample :
    (runBenchmarksWith [⟨"bad", 0⟩] "R" "V" (okOracle fun _ _ => 5)
        (okAsync 1)).results = [⟨"bad", "5.00", "0"⟩] ∧
    (runBenchmarksWith [⟨"zero", 1000⟩] "R" "V" (okOracle fun _ _ => 0)
        (okAsync 1)).results = [⟨"zero", "0.00", "Infinity"⟩] :=
  ⟨by decide, by decide⟩

/-- Claim C3 as amended: the code performs no registration-time validation
of logicalOpCount; what does hold is that every descriptor of the reference
registry declares a positive count, and that in any run whose measured
times — the asynchronous test's included — are all positive, every row of
the report (the synchronous rows and the asynchronous row) carries a
finite decimal-numeral throughput (never Infinity or NaN). -/
theorem C3_registry_positive_finite (ts : List TestDescriptor) (rt v : String)
    (f : ℕ → ℕ → ℚ) (tA : ℚ) (hf : ∀ j, 0 < f j 1) (htA : 0 < tA) :
    (∀ t ∈ tests, 0 < t.iterations) ∧
    (∀ r ∈ (runBenchmarksWith ts rt v (okOracle f) (okAsync tA)).rows,
      ∃ n : ℤ, r.opsPerSec = intToDecStr n) := by
  constructor
  · intro t ht
    fin_cases ht <;> norm_num [ITERATIONS]
  · intro r hr
    rw [runWith_ok] at hr
    rcases List.mem_append.mp hr with h | h
    · exact syncResultsSpec_ops_finite f hf ts 0 r h
    · have heq : r = asyncResult tA := List.mem_singleton.mp h
      subst heq
      refine ⟨jsRound ((10000 : ℚ) / (tA / 1000)), ?_⟩
      show toFixed0Str (opsPerSecJS 10000 tA) = _
      exact toFixed0Str_pos _ _ (ne_of_gt htA)

/-- Witness for C3's amended theorem at a concrete input, exercising both
hypotheses and the coverage of the asynchronous row. -/
theorem C3_registry_positive_finite_witness :
    (∀ _j : ℕ, (0 : ℚ) < 1) ∧ ((0 : ℚ) < 1) ∧
    (∃ n : ℤ, (asyncResult 1).opsPerSec = intToDecStr n) :=
  ⟨fun _ => by norm_num, by norm_num,
    (C3_registry_positive_finite [⟨"noop", 1000⟩] "R" "V" (fun _ _ => 1) 1
      (fun _ => by norm_num) (by norm_num)).2 (asyncResult 1) (by decide)⟩

/-- Claim C4 counterexample: when the very first warm-up invocation throws,
the failure is written to the error stream, but the process exit status is
0 — runBenchmarks().catch(console.error) handles the rejection — not the
non-zero status the claim requires. -/
theorem C4_counterexample :
    (mainEntry "R" "V" (fun _ _ => CallResult.err "boom") (okAsync 1)).errout = ["boom"] ∧
    (mainEntry "R" "V" (fun _ _ => CallResult.err "boom") (okAsync 1)).exitCode = 0 :=
  ⟨by decide, by decide⟩

/-- Claim C4 as amended: a workload failure — a throw during a warm-up
invocation, a throw during a measured run, or a rejection of the async
batch — aborts the run immediately: no later workload is attempted, no row
is printed for the failed workload, the failure is written to the error
stream; but the process exits with status 0, because the top-level
catch(console.error) handles the rejection. -/
theorem C4_abort_log_exit_zero (ts1 : List TestDescriptor) (t : TestDescriptor)
    (ts2 ts : List TestDescriptor) (rt v : String) (f : ℕ → ℕ → ℚ) (e : String) (tA : ℚ) :
    (mainEntryWith (ts1 ++ t :: ts2) rt v (failOracle f ts1.length e) (okAsync tA)).errout
        = [e] ∧
    (mainEntryWith (ts1 ++ t :: ts2) rt v (failOracle f ts1.length e) (okAsync tA)).exitCode
        = 0 ∧
    (mainEntryWith (ts1 ++ t :: ts2) rt v (failOracle f ts1.length e) (okAsync tA)).run.error
        = some e ∧
    (mainEntryWith (ts1 ++ t :: ts2) rt v (failOracle f ts1.length e) (okAsync tA)).run.results
        = syncResultsSpec f 0 ts1 ∧
    (mainEntryWith (ts1 ++ t :: ts2) rt v (failOracle f ts1.length e) (okAsync tA)).run.rows
        = syncResultsSpec f 0 ts1 ∧
    (mainEntryWith (ts1 ++ t :: ts2) rt v (failOracle f ts1.length e)
        (okAsync tA)).run.syncTrace = pairTrace 0 ts1.length ++ [(ts1.length, 0)] ∧
    (mainEntryWith (ts1 ++ t :: ts2) rt v (failOracle f ts1.length e)
        (okAsync tA)).run.asyncCalls = 0 ∧
    (mainEntryWith (ts1 ++ t :: ts2) rt v (failOracleMeasured f ts1.length e)
        (okAsync tA)).errout = [e] ∧
    (mainEntryWith (ts1 ++ t :: ts2) rt v (failOracleMeasured f ts1.length e)
        (okAsync tA)).exitCode = 0 ∧
    (mainEntryWith (ts1 ++ t :: ts2) rt v (failOracleMeasured f ts1.length e)
        (okAsync tA)).run.error = some e ∧
    (mainEntryWith (ts1 ++ t :: ts2) rt v (failOracleMeasured f ts1.length e)
        (okAsync tA)).run.results = syncResultsSpec f 0 ts1 ∧
    (mainEntryWith (ts1 ++ t :: ts2) rt v (failOracleMeasured f ts1.length e)
        (okAsync tA)).run.rows = syncResultsSpec f 0 ts1 ∧
    (mainEntryWith (ts1 ++ t :: ts2) rt v (failOracleMeasured f ts1.length e)
        (okAsync tA)).run.syncTrace
        = pairTrace 0 ts1.length ++ [(ts1.length, 0), (ts1.length, 1)] ∧
    (mainEntryWith (ts1 ++ t :: ts2) rt v (failOracleMeasured f ts1.length e)
        (okAsync tA)).run.asyncCalls = 0 ∧
    (mainEntryWith ts rt v (okOracle f) (fun _ => CallResult.err e)).errout = [e] ∧
    (mainEntryWith ts rt v (okOracle f) (fun _ => CallResult.err e)).exitCode = 0 ∧
    (mainEntryWith ts rt v (okOracle f) (fun _ => CallResult.err e)).run.error = some e ∧
    (mainEntryWith ts rt v (okOracle f) (fun _ => CallResult.err e)).run.rows
        = syncResultsSpec f 0 ts ∧
    (mainEntryWith ts rt v (okOracle f) (fun _ => CallResult.err e)).run.asyncCalls = 1 := by
  have h1 : mainEntryWith (ts1 ++ t :: ts2) rt v (failOracle f ts1.length e) (okAsync tA) =
      ⟨⟨[hrule, titleLine rt v, hrule, ""] ++ (syncResultsSpec f 0 ts1).map rowLine,
        syncResultsSpec f 0 ts1, syncResultsSpec f 0 ts1,
        pairTrace 0 ts1.length ++ [(ts1.length, 0)], 0, 0, some e⟩, [e], 0⟩ := by
    rw [mainEntryWith, runWith_failfrom ts1 t ts2 rt v f e (okAsync tA)]
  have h3 : mainEntryWith (ts1 ++ t :: ts2) rt v (failOracleMeasured f ts1.length e)
      (okAsync tA) =
      ⟨⟨[hrule, titleLine rt v, hrule, ""] ++ (syncResultsSpec f 0 ts1).map rowLine,
        syncResultsSpec f 0 ts1, syncResultsSpec f 0 ts1,
        pairTrace 0 ts1.length ++ [(ts1.length, 0), (ts1.length, 1)], 0, 0, some e⟩,
       [e], 0⟩ := by
    rw [mainEntryWith, runWith_failMeasured ts1 t ts2 rt v f e (okAsync tA)]
  have h2 : mainEntryWith ts rt v (okOracle f) (fun _ => CallResult.err e) =
      ⟨⟨[hrule, titleLine rt v, hrule, ""] ++ (syncResultsSpec f 0 ts).map rowLine ++
        ["", "Running async operations test..."],
        syncResultsSpec f 0 ts, syncResultsSpec f 0 ts, pairTrace 0 ts.length,
        1, 0, some e⟩, [e], 0⟩ := by
    rw [mainEntryWith, runWith_asyncfail ts rt v f e]
  rw [h1, h3, h2]
  exact ⟨rfl, rfl, rfl, rfl, rfl, rfl, rfl, rfl, rfl, rfl, rfl, rfl, rfl, rfl, rfl, rfl,
    rfl, rfl, rfl⟩

/-- Claim C5: every registered descriptor is invoked exactly twice in
sequence — warm-up (invocation 0) then measured run (invocation 1), as the
trace records — each reported result is computed from the measured
invocation, and the results are unchanged if the warm-up timings change:
the warm-up value is discarded. -/
theorem C5_warmup_then_measured (ts : List TestDescriptor) (rt v : String)
    (f : ℕ → ℕ → ℚ) (tA : ℚ) :
    (runBenchmarksWith ts rt v (okOracle f) (okAsync tA)).syncTrace =
      pairTrace 0 ts.length ∧
    (∀ i, (runBenchmarksWith ts rt v (okOracle f) (okAsync tA)).results[i]? =
      ts[i]?.map fun t => measuredResult t (f i 1)) ∧
    (∀ g : ℕ → ℕ → ℚ, (∀ j, f j 1 = g j 1) →
      (runBenchmarksWith ts rt v (okOracle f) (okAsync tA)).results =
        (runBenchmarksWith ts rt v (okOracle g) (okAsync tA)).results) := by
  refine ⟨?_, ?_, ?_⟩
  · rw [runWith_ok]
  · intro i
    rw [runWith_ok]
    show (syncResultsSpec f 0 ts)[i]? = _
    rw [syncResultsSpec_getElem f ts 0 i, Nat.zero_add]
  · intro g hfg
    rw [runWith_ok, runWith_ok]
    show syncResultsSpec f 0 ts = syncResultsSpec g 0 ts
    exact syncResultsSpec_warmup_blind f g hfg ts 0

/-- Witness for C5 at a concrete input, discharging the warm-up-blindness
hypothesis with an oracle whose warm-up timings differ. -/
theorem C5_warmup_then_measured_witness :
    (runBenchmarksWith [⟨"noop", 1000⟩] "R" "V" (okOracle fun _ _ => 1)
        (okAsync 1)).syncTrace = pairTrace 0 1 ∧
    (runBenchmarksWith [⟨"noop", 1000⟩] "R" "V" (okOracle fun _ _ => 1)
        (okAsync 1)).results =
      (runBenchmarksWith [⟨"noop", 1000⟩] "R" "V"
        (okOracle fun _ k => if k = 1 then 1 else 99) (okAsync 1)).results :=
  ⟨(C5_warmup_then_measured [⟨"noop", 1000⟩] "R" "V" (fun _ _ => 1) 1).1,
    (C5_warmup_then_measured [⟨"noop", 1000⟩] "R" "V" (fun _ _ => 1) 1).2.2
      (fun _ k => if k = 1 then 1 else 99) (fun _ => rfl)⟩

/-- Claim C6: the report contains exactly (number of registered
descriptors) + 1 test rows; the synchronous rows carry the registry names
in registration order and the asynchronous row is always last. -/
theorem C6_row_count_order (ts : List TestDescriptor) (rt v : String)
    (f : ℕ → ℕ → ℚ) (tA : ℚ) :
    (runBenchmarksWith ts rt v (okOracle f) (okAsync tA)).rows.map TestResult.name =
      ts.map TestDescriptor.name ++ ["Async/Promise"] ∧
    (runBenchmarksWith ts rt v (okOracle f) (okAsync tA)).rows.length = ts.length + 1 := by
  rw [runWith_ok]
  constructor
  · show (syncResultsSpec f 0 ts ++ [asyncResult tA]).map TestResult.name = _
    rw [List.map_append, syncResultsSpec_map_name]
    rfl
  · show (syncResultsSpec f 0 ts ++ [asyncResult tA]).length = _
    rw [List.length_append, syncResultsSpec_length]
    rfl

/-- Claim C7 counterexample: the row actually printed for a test named
noop measured at 1 ms does not match the claim's format — the claim left
pads the name into a 25-column field and omits the single space separating
the name field from the elapsed field, while the code prints padEnd(25)
followed by a space. -/
theorem C7_counterexample :
    (runBenchmarksWith [⟨"noop", 1000⟩] "R" "V" (okOracle fun _ _ => 1)
        (okAsync 1)).stdout[4]? =
      some "noop                            1.00 ms          1000000 ops/sec" ∧
    "noop                            1.00 ms          1000000 ops/sec" ≠
      claimedRowC7 "noop" "1.00" "1000000" :=
  ⟨by decide, by decide⟩

/-- Claim C7 as amended: every printed test row consists of the name
right-padded (left-aligned, never truncated) to 25 columns, a single
space, the elapsed time with 2 decimals right-aligned in a 10-column
field, the literal ' ms  ', the throughput numeral right-aligned in a
15-column field, and the literal ' ops/sec' — shown here by
characterizing every line of a successful run's output. -/
theorem C7_row_format (ts : List TestDescriptor) (rt v : String)
    (f : ℕ → ℕ → ℚ) (tA : ℚ) :
    (runBenchmarksWith ts rt v (okOracle f) (okAsync tA)).stdout =
      [hrule, titleLine rt v, hrule, ""] ++
      (syncResultsSpec f 0 ts).map (fun r =>
        padEnd r.name 25 ++ " " ++ padStart r.time 10 ++ " ms  " ++
          padStart r.opsPerSec 15 ++ " ops/sec") ++
      ["", "Running async operations test...",
       padEnd "Async/Promise" 25 ++ " " ++ padStart (toFixed2Str tA) 10 ++ " ms  " ++
         padStart (toFixed0Str (opsPerSecJS 10000 tA)) 15 ++ " ops/sec",
       "", hrule, "  Total Runtime: " ++ toFixed2Str (totalOf f ts) ++ " ms", hrule] := by
  rw [runWith_ok]
  rfl

/-- Claim C8: the asynchronous workload runs exactly once (a single
invocation, so no warm-up), its row is last and derives its throughput
from the fixed constant 10000, its batch eagerly initiates all 10000
sub-operations, and Promise.all joins them into a single completion
carrying every sub-operation's value. -/
theorem C8_async_once_fixed_count (ts : List TestDescriptor) (rt v : String)
    (f : ℕ → ℕ → ℚ) (tA : ℚ) :
    (runBenchmarksWith ts rt v (okOracle f) (okAsync tA)).asyncCalls = 1 ∧
    (runBenchmarksWith ts rt v (okOracle f) (okAsync tA)).rows.getLast? =
      some ⟨"Async/Promise", toFixed2Str tA, toFixed0Str (opsPerSecJS 10000 tA)⟩ ∧
    asyncBatch.length = 10000 ∧
    promiseAll asyncBatch = JSPromise.resolved ((List.range 10000).map fun i => i * 2) := by
  refine ⟨?_, ?_, asyncBatch_length, promiseAll_asyncBatch⟩
  · rw [runWith_ok]
  · rw [runWith_ok]
    show (syncResultsSpec f 0 ts ++ [asyncResult tA]).getLast? = _
    rw [List.getLast?_concat]
    rfl

/-- Claim C9: the runtime/version label is purely cosmetic — two runs
differing only in the label agree on every result, every row, the footer
total, the trace, the error, and on the whole output below the title line
(only stdout line 1, the title, can differ). -/
theorem C9_label_cosmetic (ts : List TestDescriptor) (rt1 v1 rt2 v2 : String)
    (O : Oracle) (A : AsyncOracle) :
    (runBenchmarksWith ts rt1 v1 O A).results = (runBenchmarksWith ts rt2 v2 O A).results ∧
    (runBenchmarksWith ts rt1 v1 O A).rows = (runBenchmarksWith ts rt2 v2 O A).rows ∧
    (runBenchmarksWith ts rt1 v1 O A).totalRuntime =
      (runBenchmarksWith ts rt2 v2 O A).totalRuntime ∧
    (runBenchmarksWith ts rt1 v1 O A).syncTrace =
      (runBenchmarksWith ts rt2 v2 O A).syncTrace ∧
    (runBenchmarksWith ts rt1 v1 O A).error = (runBenchmarksWith ts rt2 v2 O A).error ∧
    (runBenchmarksWith ts rt1 v1 O A).stdout.drop 2 =
      (runBenchmarksWith ts rt2 v2 O A).stdout.drop 2 := by
  rw [runBenchmarksWith, runBenchmarksWith]
  cases hs : (runSync O 0 ts).error with
  | some e => simp
  | none =>
      cases hA : A 0 with
      | err e => simp
      | ok tA => simp

/-- Claim C10: each accumulated TestResult stores its elapsed time and
throughput as already-rounded display strings, the footer total is
computed by re-parsing and summing the stored 2-decimal time strings — so
it equals the sum of the displayed elapsed values — and it can differ from
the sum of the raw measured times. -/
theorem C10_strings_reparse_total (ts : List TestDescriptor) (rt v : String)
    (f : ℕ → ℕ → ℚ) (tA : ℚ) (h : ∀ j, 0 ≤ f j 1) :
    (∀ i, (runBenchmarksWith ts rt v (okOracle f) (okAsync tA)).results[i]? =
      ts[i]?.map fun t =>
        (⟨t.name, toFixed2Str (f i 1),
          toFixed0Str (opsPerSecJS t.iterations (f i 1))⟩ : TestResult)) ∧
    (runBenchmarksWith ts rt v (okOracle f) (okAsync tA)).totalRuntime =
      (runBenchmarksWith ts rt v (okOracle f) (okAsync tA)).results.foldl
        (fun sum r => sum + jsParseFloat r.time) 0 ∧
    (runBenchmarksWith ts rt v (okOracle f) (okAsync tA)).totalRuntime =
      sumRound2 f 0 ts ∧
    (runBenchmarksWith [⟨"one", 1000⟩] "R" "V" (okOracle fun _ _ => 3 / 250)
        (okAsync 1)).totalRuntime ≠ (3 / 250 : ℚ) := by
  refine ⟨?_, ?_, ?_, by decide⟩
  · intro i
    rw [runWith_ok]
    show (syncResultsSpec f 0 ts)[i]? = _
    rw [syncResultsSpec_getElem f ts 0 i, Nat.zero_add]
    rfl
  · rw [runWith_ok]
    rfl
  · rw [runWith_ok]
    exact totalOf_eq_sumRound2 f h ts

/-- Witness for C10 at a concrete input. -/
theorem C10_strings_reparse_total_witness :
    (∀ _j : ℕ, (0 : ℚ) ≤ 1) ∧
    (runBenchmarksWith [⟨"noop", 1000⟩] "R" "V" (okOracle fun _ _ => 1)
        (okAsync 2)).totalRuntime = sumRound2 (fun _ _ => 1) 0 [⟨"noop", 1000⟩] :=
  ⟨fun _ => by norm_num,
    (C10_strings_reparse_total [⟨"noop", 1000⟩] "R" "V" (fun _ _ => 1) 2
      (fun _ => by norm_num)).2.2.1⟩

end StressBench
